import Mathlib

/-!
Shallow embedding of the Blackijecky blackjack server (Python sources under
`game_engine/`, `session/`, `common/`) together with proofs about the
properties claimed in the specification.

Conventions of the embedding:
* `Card`, `Hand` (`List Card`), `Deck` and `Round` follow
  `game_engine/Card.py`, `game_engine/Hand.py`, `game_engine/Deck.py` and
  `game_engine/Round.py`.  The Python deck stores its cards in a list and
  `Deck.draw` pops the *end* of that list; here a deck is the list of
  remaining cards in draw order (head = next card drawn).
* Python code that can raise (drawing from an empty deck, an unknown
  internal suit, a failed protocol validation) is embedded in `Option` /
  `Except String`.
* `Round.start` shuffles with `random.shuffle`; the embedding
  `Round.startWithDeck` takes the already-shuffled deck as a parameter.
* Byte strings are `List Nat` (each entry a byte value); Python `str`
  fields of protocol messages are represented by their UTF-8 code-unit
  sequences, so the codec is modelled exactly at the byte level.
-/

namespace Blackijecky

/-- A playing card, from `game_engine/Card.py`: `rank` 1..13 (1 = Ace,
11/12/13 = face), `suit` 0..3 (0=♠,1=♥,2=♦,3=♣). -/
structure Card where
  rank : Nat
  suit : Nat
  deriving DecidableEq, Repr

/-- The `Card.get_value` from `game_engine/Card.py`: face cards are worth 10,
the Ace is initially worth 11, every other card its rank. -/
def Card.get_value (c : Card) : Nat :=
  if c.rank > 10 then 10
  else if c.rank = 1 then 11
  else c.rank

/-- A card is in the domain the data model describes: rank 1..13, suit 0..3
(every card produced by `Deck.__init__` satisfies this). -/
def Card.valid (c : Card) : Bool :=
  1 ≤ c.rank && c.rank ≤ 13 && c.suit ≤ 3

/-- A hand is the `self.hand` list of `game_engine/Hand.py`. -/
abbrev Hand := List Card

/-- Number of Aces in a hand (the `aces` counter of `Hand.hand_sum`). -/
def countAces (h : Hand) : Nat :=
  (h.filter (fun c => c.rank = 1)).length

/-- The raw total of `Hand.hand_sum` before Ace downgrading:
the sum of `Card.get_value` over the hand. -/
def rawTotal (h : Hand) : Nat :=
  (h.map Card.get_value).sum

/-- The `while total > 21 and aces > 0: total -= 10; aces -= 1` loop of
`Hand.hand_sum`, recursing on the Ace counter. -/
def adjustAces : Nat → Nat → Nat
  | total, 0 => total
  | total, a + 1 => if total > 21 then adjustAces (total - 10) a else total

/-- The `Hand.hand_sum` from `game_engine/Hand.py`: raw total with Aces at 11,
then downgrade Aces (−10 each) while the total exceeds 21. -/
def hand_sum (h : Hand) : Nat :=
  adjustAces (rawTotal h) (countAces h)

/-- The `Hand.is_bust`: the hand value exceeds 21. -/
def is_bust (h : Hand) : Bool :=
  hand_sum h > 21

/-- Round phases, from `game_engine/Round.py` (`RoundState`). -/
inductive RoundState where
  | PLAYER_TURN
  | DEALER_TURN
  | ROUND_OVER
  deriving DecidableEq, Repr

/-- A round, from `game_engine/Round.py`.  `deck` is the list of remaining
cards in draw order; `state` and `outcome` start as `None` (`none`), and
the outcome is the Python outcome string. -/
structure Round where
  deck : List Card
  player_hand : Hand
  dealer_hand : Hand
  state : Option RoundState
  dealer_hidden : Bool
  outcome : Option String
  deriving DecidableEq, Repr

/-- The `Round.start`, with the post-shuffle deck given explicitly.  The loop
`for _ in range(2): player.add(draw); dealer.add(draw)` draws four cards
(player, dealer, player, dealer); a deck of fewer than four cards would
make `Deck.draw` raise (`none`).  Note the final `self.state = PLAYER_TURN`
assignment of the source is unconditional: it runs even when the blackjack
branch has just set `ROUND_OVER`. -/
def Round.startWithDeck (shuffled : List Card) : Option Round :=
  match shuffled with
  | c1 :: c2 :: c3 :: c4 :: rest =>
    let r0 : Round :=
      { deck := rest
        player_hand := [c1, c3]
        dealer_hand := [c2, c4]
        state := none
        dealer_hidden := true
        outcome := none }
    let r1 :=
      if hand_sum r0.player_hand = 21 then
        { r0 with outcome := some "BLACKJACK", state := some RoundState.ROUND_OVER }
      else r0
    some { r1 with state := some RoundState.PLAYER_TURN }
  | _ => none

/-- The `Round.need_player_decision`: player's turn and the player is not bust. -/
def Round.need_player_decision (r : Round) : Bool :=
  r.state = some RoundState.PLAYER_TURN && !(is_bust r.player_hand)

/-- The `Round.game_decision`: compare the two hand sums and set outcome and
`ROUND_OVER`. -/
def Round.game_decision (r : Round) : Round :=
  if hand_sum r.player_hand > hand_sum r.dealer_hand then
    { r with outcome := some "WIN", state := some RoundState.ROUND_OVER }
  else if hand_sum r.player_hand < hand_sum r.dealer_hand then
    { r with outcome := some "LOSS", state := some RoundState.ROUND_OVER }
  else
    { r with outcome := some "TIE", state := some RoundState.ROUND_OVER }

/-- The dealer draw loop of `Round.play_dealer_turn`
(`while dealer.hand_sum() < 17: dealer.add(deck.draw())`), recursing on the
deck; drawing from an empty deck raises in Python (`none`).
Returns the final dealer hand and the remaining deck. -/
def dealerDrawLoop : List Card → Hand → Option (Hand × List Card)
  | [], hand => if hand_sum hand < 17 then none else some (hand, [])
  | c :: rest, hand =>
    if hand_sum hand < 17 then dealerDrawLoop rest (hand ++ [c])
    else some (hand, c :: rest)

/-- The `Round.play_dealer_turn`: only acts when the state is `DEALER_TURN`;
reveals the hidden card, runs the draw loop, then either declares a dealer
bust (`WIN`) or compares hands via `game_decision`. -/
def Round.play_dealer_turn (r : Round) : Option Round :=
  if r.state = some RoundState.DEALER_TURN then
    match dealerDrawLoop r.deck r.dealer_hand with
    | none => none
    | some (dh, dk) =>
      let r1 := { r with dealer_hidden := false, dealer_hand := dh, deck := dk }
      if is_bust dh then
        some { r1 with outcome := some "WIN", state := some RoundState.ROUND_OVER }
      else
        some r1.game_decision
  else
    some r

/-- The `Round.apply_player_decision`: `"HIT"` draws one card into the player
hand (bust ends the round with `LOSS`); anything else is the `STAND`
branch, which sets `DEALER_TURN` and runs `play_dealer_turn`. -/
def Round.apply_player_decision (r : Round) (decision : String) : Option Round :=
  if decision = "HIT" then
    match r.deck with
    | [] => none
    | c :: rest =>
      let r1 := { r with player_hand := r.player_hand ++ [c], deck := rest }
      if is_bust r1.player_hand then
        some { r1 with outcome := some "LOSS", state := some RoundState.ROUND_OVER }
      else
        some r1
  else
    Round.play_dealer_turn { r with state := some RoundState.DEALER_TURN }

/-! ## Wire codec, from `common/protocol.py`.

Byte buffers are `List Nat`; a Python `bytes` object has every entry
below 256.  `str` fields are carried as their UTF-8 code units, so
`_encode_fixed_str` / `_decode_fixed_str` are modelled byte-for-byte
(`errors="replace"` makes the Python UTF-8 decode total, matching a total
Lean function on byte lists). -/

def MAGIC_COOKIE : Nat := 0xABCDDCBA
def TYPE_OFFER : Nat := 0x2
def TYPE_REQUEST : Nat := 0x3
def TYPE_PAYLOAD : Nat := 0x4

def NAME_LEN : Nat := 32
def DECISION_LEN : Nat := 5

def OFFER_LEN : Nat := 4 + 1 + 2 + NAME_LEN
def REQUEST_LEN : Nat := 4 + 1 + 1 + NAME_LEN
def PAYLOAD_CLIENT_LEN : Nat := 4 + 1 + DECISION_LEN
def PAYLOAD_SERVER_LEN : Nat := 4 + 1 + 1 + 3

def RESULT_NOT_OVER : Nat := 0x0
def RESULT_TIE : Nat := 0x1
def RESULT_LOSS : Nat := 0x2
def RESULT_WIN : Nat := 0x3

/-- The bytes of the 5-byte ASCII literal `"Hittt"`. -/
def DECISION_HIT : List Nat := [72, 105, 116, 116, 116]

/-- The bytes of the 5-byte ASCII literal `"Stand"`. -/
def DECISION_STAND : List Nat := [83, 116, 97, 110, 100]

/-- Big-endian 4-byte encoding of an unsigned 32-bit value
(`struct.pack` format character `I`). -/
def u32be (n : Nat) : List Nat :=
  [n / 2 ^ 24 % 256, n / 2 ^ 16 % 256, n / 2 ^ 8 % 256, n % 256]

/-- Big-endian 2-byte encoding of an unsigned 16-bit value (format `H`). -/
def u16be (n : Nat) : List Nat :=
  [n / 256 % 256, n % 256]

/-- Big-endian read of 4 bytes (format `I`); reads the first four entries. -/
def be32 (b : List Nat) : Nat :=
  b.getD 0 0 * 2 ^ 24 + b.getD 1 0 * 2 ^ 16 + b.getD 2 0 * 2 ^ 8 + b.getD 3 0

/-- Big-endian read of 2 bytes (format `H`). -/
def be16 (b : List Nat) : Nat :=
  b.getD 0 0 * 256 + b.getD 1 0

/-- The `_encode_fixed_str`: truncate the UTF-8 bytes to `length`, pad with
NUL bytes up to `length`. -/
def _encode_fixed_str (s : List Nat) (length : Nat) : List Nat :=
  let raw := s.take length
  raw ++ List.replicate (length - raw.length) 0

/-- The `_decode_fixed_str`: split at the first NUL byte and keep the prefix
(`b.split(b"\x00", 1)[0]`); the UTF-8 decode with `errors="replace"`
never raises. -/
def _decode_fixed_str (b : List Nat) : List Nat :=
  b.takeWhile (fun x => x ≠ 0)

/-- The `_validate_cookie_and_type`. -/
def _validate_cookie_and_type (cookie msg_type expected_type : Nat) :
    Except String Unit :=
  if cookie ≠ MAGIC_COOKIE then Except.error "Bad magic cookie"
  else if msg_type ≠ expected_type then Except.error "Bad message type"
  else Except.ok ()

/-- The `_validate_port`: a TCP port fits 16 bits.  Python integers may be
negative, hence `Int`. -/
def _validate_port (port : Int) : Except String Unit :=
  if 0 ≤ port ∧ port ≤ 65535 then Except.ok ()
  else Except.error "Invalid TCP port"

/-- The `_validate_rounds`: the round count fits one byte. -/
def _validate_rounds (rounds : Int) : Except String Unit :=
  if 0 ≤ rounds ∧ rounds ≤ 255 then Except.ok ()
  else Except.error "Invalid rounds"

/-- The `_validate_rank_suit`: rank 1..13 and suit 0..3. -/
def _validate_rank_suit (rank suit : Int) : Except String Unit :=
  if ¬(1 ≤ rank ∧ rank ≤ 13) then Except.error "Rank must be in range 1..13"
  else if ¬(0 ≤ suit ∧ suit ≤ 3) then Except.error "Suit must be in range 0..3"
  else Except.ok ()

/-- The `Offer` dataclass; the server name is its UTF-8 byte sequence. -/
structure Offer where
  tcp_port : Int
  server_name : List Nat
  deriving DecidableEq, Repr

/-- The `Request` dataclass. -/
structure Request where
  rounds : Int
  team_name : List Nat
  deriving DecidableEq, Repr

/-- The `ServerPayload` dataclass. -/
structure ServerPayload where
  result : Int
  rank : Int
  suit : Int
  deriving DecidableEq, Repr

/-- The `pack_offer`: validate the port, encode the fixed-width name, emit
`!IBH32s`. -/
def pack_offer (tcp_port : Int) (server_name : List Nat) :
    Except String (List Nat) :=
  match _validate_port tcp_port with
  | Except.error e => Except.error e
  | Except.ok _ =>
    Except.ok (u32be MAGIC_COOKIE ++ [TYPE_OFFER] ++ u16be tcp_port.toNat ++
      _encode_fixed_str server_name NAME_LEN)

/-- The `unpack_offer`: length, cookie, type and port checks, then decode the
name field. -/
def unpack_offer (data : List Nat) : Except String Offer :=
  if data.length ≠ OFFER_LEN then Except.error "Bad offer length"
  else
    match _validate_cookie_and_type (be32 data) (data.getD 4 0) TYPE_OFFER with
    | Except.error e => Except.error e
    | Except.ok _ =>
      match _validate_port (be16 (data.drop 5)) with
      | Except.error e => Except.error e
      | Except.ok _ =>
        Except.ok { tcp_port := be16 (data.drop 5),
                    server_name := _decode_fixed_str (data.drop 7) }

/-- The `pack_request`: validate the round count, emit `!IBB32s`. -/
def pack_request (rounds : Int) (team_name : List Nat) :
    Except String (List Nat) :=
  match _validate_rounds rounds with
  | Except.error e => Except.error e
  | Except.ok _ =>
    Except.ok (u32be MAGIC_COOKIE ++ [TYPE_REQUEST] ++ [rounds.toNat] ++
      _encode_fixed_str team_name NAME_LEN)

/-- The `unpack_request`. -/
def unpack_request (data : List Nat) : Except String Request :=
  if data.length ≠ REQUEST_LEN then Except.error "Bad request length"
  else
    match _validate_cookie_and_type (be32 data) (data.getD 4 0) TYPE_REQUEST with
    | Except.error e => Except.error e
    | Except.ok _ =>
      match _validate_rounds (data.getD 5 0) with
      | Except.error e => Except.error e
      | Except.ok _ =>
        Except.ok { rounds := data.getD 5 0,
                    team_name := _decode_fixed_str (data.drop 6) }

/-- The `pack_payload_decision`: only the two recognized 5-byte literals are
accepted; emits `!IB5s`. -/
def pack_payload_decision (decision : List Nat) : Except String (List Nat) :=
  if decision ≠ DECISION_HIT ∧ decision ≠ DECISION_STAND then
    Except.error "Decision must be one of the two literals"
  else if decision.length ≠ DECISION_LEN then
    Except.error "Decision must be exactly 5 ASCII bytes"
  else Except.ok (u32be MAGIC_COOKIE ++ [TYPE_PAYLOAD] ++ decision)

/-- The `unpack_payload_decision`: length / cookie / type checks, a strict
ASCII decode (any byte ≥ 128 raises), then the literal check. -/
def unpack_payload_decision (data : List Nat) : Except String (List Nat) :=
  if data.length ≠ PAYLOAD_CLIENT_LEN then
    Except.error "Bad client payload length"
  else
    match _validate_cookie_and_type (be32 data) (data.getD 4 0) TYPE_PAYLOAD with
    | Except.error e => Except.error e
    | Except.ok _ =>
      if ¬ (data.drop 5).all (fun b => b < 128) then
        Except.error "Decision payload is not valid ASCII"
      else if data.drop 5 ≠ DECISION_HIT ∧ data.drop 5 ≠ DECISION_STAND then
        Except.error "Unknown decision value"
      else Except.ok (data.drop 5)

/-- The `pack_payload_server`: the result must fit one byte and the card must
pass `_validate_rank_suit`; emits `!IBB3s` with the card as `!HB`. -/
def pack_payload_server (result rank suit : Int) : Except String (List Nat) :=
  if ¬(0 ≤ result ∧ result ≤ 255) then Except.error "Result must fit 1 byte"
  else
    match _validate_rank_suit rank suit with
    | Except.error e => Except.error e
    | Except.ok _ =>
      Except.ok (u32be MAGIC_COOKIE ++ [TYPE_PAYLOAD] ++ [result.toNat] ++
        u16be rank.toNat ++ [suit.toNat])

/-- The `unpack_payload_server`. -/
def unpack_payload_server (data : List Nat) : Except String ServerPayload :=
  if data.length ≠ PAYLOAD_SERVER_LEN then
    Except.error "Bad server payload length"
  else
    match _validate_cookie_and_type (be32 data) (data.getD 4 0) TYPE_PAYLOAD with
    | Except.error e => Except.error e
    | Except.ok _ =>
      match _validate_rank_suit (be16 (data.drop 6)) (data.getD 8 0) with
      | Except.error e => Except.error e
      | Except.ok _ =>
        Except.ok { result := data.getD 5 0, rank := be16 (data.drop 6),
                    suit := data.getD 8 0 }

/-! ## Server session layer, from `session/server_session.py`.

The socket writes of `_send_card` are modelled by collecting the abstract
`ServerPayload` values in order; the socket reads of the decision loop are
modelled by a list of incoming 10-byte buffers.  A Python exception that
terminates the session (unhandled `ProtocolError`, `ConnectionError` from
`recv_exact`) ends the modelled round with `SessEnd.protoErr`; an engine
crash (empty-deck draw, unknown internal suit) is `none`. -/

/-- The `_INTERNAL_TO_PROTO_SUIT`: engine suits 0=♠,1=♥,2=♦,3=♣ map to wire
suits 0=H,1=D,2=C,3=S; a suit outside the table raises (`none`). -/
def _INTERNAL_TO_PROTO_SUIT (suit : Nat) : Option Nat :=
  if suit = 1 then some 0
  else if suit = 2 then some 1
  else if suit = 3 then some 2
  else if suit = 0 then some 3
  else none

/-- The `_outcome_to_result_code`: `None → NOT_OVER`, `WIN|BLACKJACK → WIN`,
`LOSS → LOSS`, `TIE → TIE`, anything else falls back to `NOT_OVER`. -/
def _outcome_to_result_code (outcome : Option String) : Nat :=
  match outcome with
  | none => RESULT_NOT_OVER
  | some s =>
    if s = "WIN" ∨ s = "BLACKJACK" then RESULT_WIN
    else if s = "LOSS" then RESULT_LOSS
    else if s = "TIE" then RESULT_TIE
    else RESULT_NOT_OVER

/-- The membership test `rnd.outcome in ("WIN", "LOSS", "TIE", "BLACKJACK")`
used throughout the session loop. -/
def isFinalOutcome (outcome : Option String) : Bool :=
  match outcome with
  | none => false
  | some s => s = "WIN" || s = "LOSS" || s = "TIE" || s = "BLACKJACK"

/-- The `_send_card`: convert the engine card through the suit table and pack
it with `pack_payload_server`; the produced abstract payload is what goes
on the wire.  A failing conversion or packing raises (`none`). -/
def _send_card (card : Card) (result_code : Nat) : Option ServerPayload :=
  match _INTERNAL_TO_PROTO_SUIT card.suit with
  | none => none
  | some suit_proto =>
    match pack_payload_server result_code card.rank suit_proto with
    | Except.error _ => none
    | Except.ok _ =>
      some { result := result_code, rank := card.rank, suit := suit_proto }

/-- The send loop of `handle_stand_and_send_dealer`: one payload per card,
`NOT_OVER` on all but the last, the outcome code on the last when the
outcome is final.  The Boolean records whether every send succeeded; on a
failing send the payloads already written to the socket are kept and the
exception propagates. -/
def sendDealerCards (cards : List Card) (outcome : Option String) :
    List ServerPayload × Bool :=
  match cards with
  | [] => ([], true)
  | [c] =>
    let result_code :=
      if isFinalOutcome outcome then _outcome_to_result_code outcome
      else RESULT_NOT_OVER
    match _send_card c result_code with
    | none => ([], false)
    | some p => ([p], true)
  | c :: rest =>
    match _send_card c RESULT_NOT_OVER with
    | none => ([], false)
    | some p =>
      let q := sendDealerCards rest outcome
      (p :: q.1, q.2)

/-- The send loop of the HIT branch of `run_server_session`: every newly
drawn player card is sent with the same result code. -/
def sendCardsWithCode : List Card → Nat → List ServerPayload × Bool
  | [], _ => ([], true)
  | c :: rest, code =>
    match _send_card c code with
    | none => ([], false)
    | some p =>
      let q := sendCardsWithCode rest code
      (p :: q.1, q.2)

/-- The `handle_stand_and_send_dealer`: run the engine's STAND path, send every
dealer card the client has not seen (`hand[sent_dealer:]`, falling back to
`hand[1:]` when that slice is empty but the hand is not), and if no card
was sent while an outcome exists, send one extra payload referencing the
most recent known card.  Returns the payloads written to the socket and,
unless an exception escaped (`none`), the updated round together with the
new `sent_dealer`. -/
def handle_stand_and_send_dealer (r : Round) (sent_dealer : Nat) :
    List ServerPayload × Option (Round × Nat) :=
  match r.apply_player_decision "STAND" with
  | none => ([], none)
  | some r' =>
    let after_d := r'.dealer_hand.length
    let new_cards0 := r'.dealer_hand.drop sent_dealer
    let new_cards :=
      if new_cards0 = [] ∧ after_d > 0 then r'.dealer_hand.drop 1 else new_cards0
    match sendDealerCards new_cards r'.outcome with
    | (ps, false) => (ps, none)
    | (ps, true) =>
      if isFinalOutcome r'.outcome ∧ new_cards.length = 0 then
        let ref_card :=
          match r'.dealer_hand.getLast? with
          | some c => some c
          | none => r'.player_hand.getLast?
        match ref_card with
        | none => (ps, none)
        | some c =>
          match _send_card c (_outcome_to_result_code r'.outcome) with
          | none => (ps, none)
          | some p => (ps ++ [p], some (r', after_d))
      else (ps, some (r', after_d))

/-- How one modelled round ends: the loop exits normally (`break` /
`continue`), a protocol or transport exception terminates the session, or
some other exception escapes (engine crash, failed send). -/
inductive SessEnd where
  | done
  | protoErr
  | crash
  deriving DecidableEq, Repr

/-- The `while True` player-decision loop of `run_server_session`,
consuming one received buffer per iteration.  `sent_dealer` is the
client-seen dealer-card counter.  Returns the payloads written to the
socket during the loop and how the loop ended. -/
def roundLoop : Round → List (List Nat) → Nat → List ServerPayload × SessEnd
  | r, packets, sent_dealer =>
    if isFinalOutcome r.outcome then ([], SessEnd.done)
    else if r.need_player_decision then
      match packets with
      | [] => ([], SessEnd.protoErr)
      | pkt :: more =>
        match unpack_payload_decision pkt with
        | Except.error _ => ([], SessEnd.protoErr)
        | Except.ok decision =>
          if decision = DECISION_HIT then
            match r.apply_player_decision "HIT" with
            | none => ([], SessEnd.crash)
            | some r' =>
              let new_cards := r'.player_hand.drop r.player_hand.length
              let result_code := _outcome_to_result_code r'.outcome
              match sendCardsWithCode new_cards result_code with
              | (ps, false) => (ps, SessEnd.crash)
              | (ps, true) =>
                if isFinalOutcome r'.outcome then (ps, SessEnd.done)
                else
                  let q := roundLoop r' more sent_dealer
                  (ps ++ q.1, q.2)
          else if decision = DECISION_STAND then
            match handle_stand_and_send_dealer r sent_dealer with
            | (ps, none) => (ps, SessEnd.crash)
            | (ps, some (r', sd')) =>
              let q := roundLoop r' more sd'
              (ps ++ q.1, q.2)
          else
            match handle_stand_and_send_dealer r sent_dealer with
            | (ps, none) => (ps, SessEnd.crash)
            | (ps, some _) => (ps, SessEnd.done)
    else ([], SessEnd.done)

/-- One round of `run_server_session`, starting just after
`session.start_next_round()`: send the player's first card, the dealer's
up-card and the player's second card, handling the blackjack path
(`hand_sum == 21`: third payload carries `RESULT_WIN` and the round is
over), then enter the decision loop.  Fewer than two cards in either hand
raises a `RuntimeError` before anything is sent. -/
def runRoundPayloads (r : Round) (packets : List (List Nat)) :
    List ServerPayload × SessEnd :=
  if r.player_hand.length < 2 ∨ r.dealer_hand.length < 2 then ([], SessEnd.crash)
  else
    match _send_card (r.player_hand.getD 0 ⟨0, 0⟩) RESULT_NOT_OVER with
    | none => ([], SessEnd.crash)
    | some p1 =>
      match _send_card (r.dealer_hand.getD 0 ⟨0, 0⟩) RESULT_NOT_OVER with
      | none => ([p1], SessEnd.crash)
      | some d1 =>
        if hand_sum r.player_hand = 21 then
          match _send_card (r.player_hand.getD 1 ⟨0, 0⟩) RESULT_WIN with
          | none => ([p1, d1], SessEnd.crash)
          | some p2 => ([p1, d1, p2], SessEnd.done)
        else
          match _send_card (r.player_hand.getD 1 ⟨0, 0⟩) RESULT_NOT_OVER with
          | none => ([p1, d1], SessEnd.crash)
          | some p2 =>
            let q := roundLoop r packets 1
            (p1 :: d1 :: p2 :: q.1, q.2)

/-! ## Reference definitions taken from the specification's words. -/

/-- The card value as the specification words it: face (rank 11–13) → 10,
Ace (rank 1) → 11, else the rank. -/
def specCardValue (c : Card) : Nat :=
  if 11 ≤ c.rank ∧ c.rank ≤ 13 then 10
  else if c.rank = 1 then 11
  else c.rank

/-- The reference hand value of the specification: sum the card values,
then subtract 10 once per downgraded Ace, downgrading while the total
exceeds 21 and at most once per Ace present.  The number of downgrades is
written in closed form: none when the total is at most 21, otherwise the
least number of 10-steps that brings the total to 21 or below, capped at
the number of Aces. -/
def handSumSpec (h : Hand) : Nat :=
  let total := (h.map specCardValue).sum
  let aces := (h.filter (fun c => c.rank = 1)).length
  total - 10 * min aces (if total ≤ 21 then 0 else (total - 12) / 10)

/-! ## Field-validity predicates of the wire formats (§4.1 of the spec).

A string field is representable in its fixed 32-byte NUL-padded slot
exactly when its UTF-8 encoding has at most 32 bytes, all of them nonzero
(and below 256, as Python bytes are). -/

/-- A name representable in a 32-byte NUL-padded field. -/
def validName (s : List Nat) : Prop :=
  s.length ≤ NAME_LEN ∧ ∀ b ∈ s, b < 256 ∧ b ≠ 0

instance (s : List Nat) : Decidable (validName s) := by
  unfold validName
  infer_instance

/-- Valid `Offer` fields: a 16-bit port and a representable name. -/
def Offer.validFields (m : Offer) : Prop :=
  0 ≤ m.tcp_port ∧ m.tcp_port ≤ 65535 ∧ validName m.server_name

/-- Valid `Request` fields: a one-byte round count and a representable
name. -/
def Request.validFields (m : Request) : Prop :=
  0 ≤ m.rounds ∧ m.rounds ≤ 255 ∧ validName m.team_name

/-- A valid decision value: one of the two recognized 5-byte literals. -/
def validDecision (d : List Nat) : Prop :=
  d = DECISION_HIT ∨ d = DECISION_STAND

/-- Valid `ServerPayload` fields: one-byte result, rank 1..13,
suit 0..3. -/
def ServerPayload.validFields (m : ServerPayload) : Prop :=
  0 ≤ m.result ∧ m.result ≤ 255 ∧ 1 ≤ m.rank ∧ m.rank ≤ 13 ∧
    0 ≤ m.suit ∧ m.suit ≤ 3

instance (m : Offer) : Decidable m.validFields := by
  unfold Offer.validFields
  infer_instance

instance (m : Request) : Decidable m.validFields := by
  unfold Request.validFields
  infer_instance

instance (d : List Nat) : Decidable (validDecision d) := by
  unfold validDecision
  infer_instance

instance (m : ServerPayload) : Decidable m.validFields := by
  unfold ServerPayload.validFields
  infer_instance

instance {ε α : Type} [DecidableEq ε] [DecidableEq α] :
    DecidableEq (Except ε α) := fun a b =>
  match a, b with
  | Except.error e₁, Except.error e₂ =>
    if h : e₁ = e₂ then isTrue (by rw [h]) else
      isFalse (by intro hh; cases hh; exact h rfl)
  | Except.error _, Except.ok _ => isFalse (by intro hh; cases hh)
  | Except.ok _, Except.error _ => isFalse (by intro hh; cases hh)
  | Except.ok a₁, Except.ok a₂ =>
    if h : a₁ = a₂ then isTrue (by rw [h]) else
      isFalse (by intro hh; cases hh; exact h rfl)

/-! ## Concrete fixtures used to evaluate the definitions. -/

/-- A finished round: player Ace♠+King♠ (blackjack, 21), dealer King♥+9♦
(19), state `ROUND_OVER`, outcome `BLACKJACK`. -/
def finishedRound : Round :=
  { deck := []
    player_hand := [⟨1, 0⟩, ⟨13, 0⟩]
    dealer_hand := [⟨13, 1⟩, ⟨9, 2⟩]
    state := some RoundState.ROUND_OVER
    dealer_hidden := false
    outcome := some "BLACKJACK" }

/-- A round in `PLAYER_TURN` right after the deal: player King♠+9♥ (19),
dealer King♦+9♣ (19), a deck of fifteen 2♠ left. -/
def standRound : Round :=
  { deck := List.replicate 15 ⟨2, 0⟩
    player_hand := [⟨13, 0⟩, ⟨9, 1⟩]
    dealer_hand := [⟨13, 2⟩, ⟨9, 3⟩]
    state := some RoundState.PLAYER_TURN
    dealer_hidden := true
    outcome := none }

/-- A received client payload whose decision field is `"XXXXX"`: correct
length, cookie and type, but not one of the two recognized literals. -/
def bogusDecisionPacket : List Nat :=
  [0xAB, 0xCD, 0xDC, 0xBA, 0x4, 88, 88, 88, 88, 88]

/-! ## Lemmas about the hand value. -/

/-- Closed form of the Ace-downgrading loop. -/
theorem adjustAces_closed (a t : Nat) :
    adjustAces t a = t - 10 * min a (if t ≤ 21 then 0 else (t - 12) / 10) := by
  induction a generalizing t with
  | zero => simp [adjustAces]
  | succ a ih =>
    unfold adjustAces
    by_cases h : t > 21
    · rw [if_pos h, ih]
      rw [if_neg (by omega : ¬ t ≤ 21)]
      by_cases h2 : t - 10 ≤ 21
      · rw [if_pos h2]
        have hdiv : (t - 12) / 10 = 1 := by omega
        rw [hdiv]
        omega
      · rw [if_neg h2]
        have hdiv : (t - 12) / 10 = (t - 10 - 12) / 10 + 1 := by omega
        rw [hdiv, Nat.succ_min_succ]
        generalize min a ((t - 10 - 12) / 10) = m
        omega
    · rw [if_neg h, if_pos (by omega : t ≤ 21)]
      simp

/-- On cards of the data model's domain the source's `Card.get_value`
agrees with the specification's card value. -/
theorem get_value_eq_specCardValue (c : Card) (hc : c.valid = true) :
    Card.get_value c = specCardValue c := by
  simp only [Card.valid, Bool.and_eq_true, decide_eq_true_eq] at hc
  simp only [Card.get_value, specCardValue]
  split_ifs <;> omega

/-- The `hand_sum` computes the specification's reference value on every hand
of domain-valid cards. -/
theorem hand_sum_eq_handSumSpec (h : Hand) (hc : ∀ c ∈ h, c.valid = true) :
    hand_sum h = handSumSpec h := by
  have hmap : h.map Card.get_value = h.map specCardValue := by
    induction h with
    | nil => rfl
    | cons c t iht =>
      simp only [List.map_cons]
      rw [get_value_eq_specCardValue c (hc c (by simp)),
        iht (fun x hx => hc x (by simp [hx]))]
  simp only [hand_sum, handSumSpec, rawTotal, countAces, hmap]
  rw [adjustAces_closed]

/-- The `hand_sum` only depends on the multiset of cards: it is invariant
under permutation of the hand. -/
theorem hand_sum_perm (h₁ h₂ : Hand) (hp : h₁.Perm h₂) :
    hand_sum h₁ = hand_sum h₂ := by
  simp only [hand_sum, rawTotal, countAces]
  rw [(hp.map Card.get_value).sum_eq, (hp.filter _).length_eq]

/-- A non-Ace card of the data model's domain is worth at least 2. -/
theorem two_le_get_value (c : Card) (hc : c.valid = true) (h1 : c.rank ≠ 1) :
    2 ≤ c.get_value := by
  simp only [Card.valid, Bool.and_eq_true, decide_eq_true_eq] at hc
  simp only [Card.get_value]
  split_ifs <;> omega

/-- Raw total lower bound: every ace contributes 11 and every other card
at least 2. -/
theorem rawTotal_ge (h : Hand) (hc : ∀ c ∈ h, c.valid = true) :
    2 * h.length + 9 * countAces h ≤ rawTotal h := by
  induction h with
  | nil => simp [rawTotal, countAces]
  | cons c t ih =>
    have hct : ∀ x ∈ t, x.valid = true := fun x hx => hc x (by simp [hx])
    have iht := ih hct
    have hrc : rawTotal (c :: t) = c.get_value + rawTotal t := by
      simp [rawTotal]
    by_cases h1 : c.rank = 1
    · have hv : c.get_value = 11 := by simp [Card.get_value, h1]
      have hfc : countAces (c :: t) = countAces t + 1 := by
        simp [countAces, List.filter_cons, h1]
      simp only [List.length_cons, hrc, hfc]
      omega
    · have hv := two_le_get_value c (hc c (by simp)) h1
      have hfc : countAces (c :: t) = countAces t := by
        simp [countAces, List.filter_cons, h1]
      simp only [List.length_cons, hrc, hfc]
      omega

/-- The Ace-downgrading loop never removes more than 10 per Ace. -/
theorem adjustAces_ge (t a : Nat) : t - 10 * a ≤ adjustAces t a := by
  rw [adjustAces_closed]
  split_ifs <;> omega

/-- A hand of domain-valid cards is worth at least one point per card. -/
theorem length_le_hand_sum (h : Hand) (hc : ∀ c ∈ h, c.valid = true) :
    h.length ≤ hand_sum h := by
  have h1 := rawTotal_ge h hc
  have h2 : countAces h ≤ h.length := List.length_filter_le _ _
  have h3 := adjustAces_ge (rawTotal h) (countAces h)
  simp only [hand_sum]
  omega

/-- Characterization of the dealer draw loop: when the dealer hand plus
the deck hold at least 17 cards, the loop terminates without exhausting
the deck, the dealer hand is extended by a prefix of the deck in draw
order, it stops at 17 or more, and every card was drawn from a hand worth
less than 17. -/
theorem dealerDrawLoop_spec :
    ∀ (deck : List Card) (hand : Hand),
    (∀ c ∈ hand, c.valid = true) → (∀ c ∈ deck, c.valid = true) →
    17 ≤ hand.length + deck.length →
    ∃ k, dealerDrawLoop deck hand = some (hand ++ deck.take k, deck.drop k) ∧
      17 ≤ hand_sum (hand ++ deck.take k) ∧
      ∀ j, hand.length ≤ j → j < hand.length + k →
        hand_sum ((hand ++ deck.take k).take j) < 17 := by
  intro deck
  induction deck with
  | nil =>
    intro hand hv _ hlen
    have hge : ¬ hand_sum hand < 17 := by
      have := length_le_hand_sum hand hv
      simp only [List.length_nil] at hlen
      omega
    refine ⟨0, by simp [dealerDrawLoop, hge], by simpa using (by omega), ?_⟩
    intro j hj1 hj2
    omega
  | cons c rest ih =>
    intro hand hv hdv hlen
    by_cases hs : hand_sum hand < 17
    · have hv' : ∀ x ∈ hand ++ [c], x.valid = true := by
        intro x hx
        rcases List.mem_append.mp hx with h | h
        · exact hv x h
        · have hxc : x = c := by simpa using h
          rw [hxc]
          exact hdv c (by simp)
      have hdv' : ∀ x ∈ rest, x.valid = true := fun x hx => hdv x (by simp [hx])
      have hlen' : 17 ≤ (hand ++ [c]).length + rest.length := by
        simp only [List.length_append, List.length_singleton,
          List.length_cons] at *
        omega
      obtain ⟨k, heq, hsum, hpre⟩ := ih (hand ++ [c]) hv' hdv' hlen'
      have hlist : hand ++ (c :: rest).take (k + 1) = (hand ++ [c]) ++ rest.take k := by
        simp [List.take_succ_cons, List.append_assoc]
      refine ⟨k + 1, ?_, ?_, ?_⟩
      · simp only [dealerDrawLoop, if_pos hs]
        rw [heq, hlist]
        simp [List.drop_succ_cons]
      · rw [hlist]
        exact hsum
      · intro j hj1 hj2
        rw [hlist]
        by_cases hj : j = hand.length
        · subst hj
          have htk : ((hand ++ [c]) ++ rest.take k).take hand.length = hand := by
            rw [List.append_assoc]
            exact List.take_left ..
          rw [htk]
          exact hs
        · refine hpre j ?_ ?_
          · simp only [List.length_append, List.length_singleton]
            omega
          · simp only [List.length_append, List.length_singleton]
            omega
    · refine ⟨0, by simp [dealerDrawLoop, hs], by simpa using (by omega), ?_⟩
      intro j hj1 hj2
      omega

/-! ## Theorems settling the claims (engine side). -/

/-- Core characterization of the STAND path, shared by several results
below: with domain-valid cards and at least 17 cards available to the
dealer, the dealer hand is extended by a prefix of the deck in draw
order, every draw happened from a hand worth less than 17, no draw
happens at 17 or more, a dealer bust gives WIN and otherwise the sums are
compared, and the state ends `ROUND_OVER`. -/
theorem stand_autoplay_core (r : Round)
    (hst : r.state = some RoundState.PLAYER_TURN)
    (hdv : ∀ c ∈ r.dealer_hand, c.valid = true)
    (hkv : ∀ c ∈ r.deck, c.valid = true)
    (hlen : 17 ≤ r.dealer_hand.length + r.deck.length) :
    ∃ (r' : Round) (k : Nat),
      r.apply_player_decision "STAND" = some r' ∧
      r'.state = some RoundState.ROUND_OVER ∧
      r'.player_hand = r.player_hand ∧
      r'.dealer_hand = r.dealer_hand ++ r.deck.take k ∧
      r'.deck = r.deck.drop k ∧
      17 ≤ hand_sum r'.dealer_hand ∧
      (∀ j, r.dealer_hand.length ≤ j → j < r'.dealer_hand.length →
        hand_sum (r'.dealer_hand.take j) < 17) ∧
      r'.outcome = some (if 21 < hand_sum r'.dealer_hand then "WIN"
        else if hand_sum r'.dealer_hand < hand_sum r.player_hand then "WIN"
        else if hand_sum r.player_hand < hand_sum r'.dealer_hand then "LOSS"
        else "TIE") := by
  obtain ⟨k, heq, hsum, hpre⟩ := dealerDrawLoop_spec r.deck r.dealer_hand hdv hkv hlen
  have hlenpre : ∀ j, j < (r.dealer_hand ++ r.deck.take k).length →
      j < r.dealer_hand.length + k := by
    intro j hj
    simp only [List.length_append, List.length_take] at hj
    omega
  cases hbust : is_bust (r.dealer_hand ++ r.deck.take k) with
  | true =>
    refine ⟨{ r with dealer_hidden := false, dealer_hand := r.dealer_hand ++ r.deck.take k, deck := r.deck.drop k, outcome := some "WIN", state := some RoundState.ROUND_OVER }, k, ?_, rfl, rfl, rfl, rfl, ?_, ?_, ?_⟩
    · simp [Round.apply_player_decision, Round.play_dealer_turn, heq, hbust]
    · exact hsum
    · intro j hj1 hj2
      exact hpre j hj1 (hlenpre j hj2)
    · have h21 : 21 < hand_sum (r.dealer_hand ++ r.deck.take k) := by
        simpa [is_bust] using hbust
      dsimp only
      rw [if_pos h21]
  | false =>
    have h21 : ¬ 21 < hand_sum (r.dealer_hand ++ r.deck.take k) := by
      simpa [is_bust] using hbust
    by_cases hgt : hand_sum (r.dealer_hand ++ r.deck.take k) < hand_sum r.player_hand
    · refine ⟨{ r with dealer_hidden := false, dealer_hand := r.dealer_hand ++ r.deck.take k, deck := r.deck.drop k, outcome := some "WIN", state := some RoundState.ROUND_OVER }, k, ?_, rfl, rfl, rfl, rfl, ?_, ?_, ?_⟩
      · simp [Round.apply_player_decision, Round.play_dealer_turn,
          Round.game_decision, heq, hbust, hgt]
      · exact hsum
      · intro j hj1 hj2
        exact hpre j hj1 (hlenpre j hj2)
      · dsimp only
        rw [if_neg h21, if_pos hgt]
    · by_cases hlt : hand_sum r.player_hand < hand_sum (r.dealer_hand ++ r.deck.take k)
      · refine ⟨{ r with dealer_hidden := false, dealer_hand := r.dealer_hand ++ r.deck.take k, deck := r.deck.drop k, outcome := some "LOSS", state := some RoundState.ROUND_OVER }, k, ?_, rfl, rfl, rfl, rfl, ?_, ?_, ?_⟩
        · simp [Round.apply_player_decision, Round.play_dealer_turn,
            Round.game_decision, heq, hbust, hgt, hlt]
        · exact hsum
        · intro j hj1 hj2
          exact hpre j hj1 (hlenpre j hj2)
        · dsimp only
          rw [if_neg h21, if_neg hgt, if_pos hlt]
      · refine ⟨{ r with dealer_hidden := false, dealer_hand := r.dealer_hand ++ r.deck.take k, deck := r.deck.drop k, outcome := some "TIE", state := some RoundState.ROUND_OVER }, k, ?_, rfl, rfl, rfl, rfl, ?_, ?_, ?_⟩
        · simp [Round.apply_player_decision, Round.play_dealer_turn,
            Round.game_decision, heq, hbust, hgt, hlt]
        · exact hsum
        · intro j hj1 hj2
          exact hpre j hj1 (hlenpre j hj2)
        · dsimp only
          rw [if_neg h21, if_neg hgt, if_neg hlt]

/-- C9: for every round in `PLAYER_TURN` (with domain-valid cards and at
least 17 cards available to the dealer, as in every reachable round), the
STAND decision synchronously runs dealer auto-play: the dealer hand is
extended by a prefix of the deck in draw order, the dealer drew only
while worth less than 17 and never once at 17 or more, the outcome is WIN
on a dealer bust (sum over 21) and otherwise decided by comparing the
sums (player higher → WIN, lower → LOSS, equal → TIE), and the state is
`ROUND_OVER` in every branch. -/
theorem stand_runs_dealer_autoplay (r : Round)
    (hst : r.state = some RoundState.PLAYER_TURN)
    (hdv : ∀ c ∈ r.dealer_hand, c.valid = true)
    (hkv : ∀ c ∈ r.deck, c.valid = true)
    (hlen : 17 ≤ r.dealer_hand.length + r.deck.length) :
    ∃ (r' : Round) (k : Nat),
      r.apply_player_decision "STAND" = some r' ∧
      r'.state = some RoundState.ROUND_OVER ∧
      r'.player_hand = r.player_hand ∧
      r'.dealer_hand = r.dealer_hand ++ r.deck.take k ∧
      r'.deck = r.deck.drop k ∧
      17 ≤ hand_sum r'.dealer_hand ∧
      (∀ j, r.dealer_hand.length ≤ j → j < r'.dealer_hand.length →
        hand_sum (r'.dealer_hand.take j) < 17) ∧
      r'.outcome = some (if 21 < hand_sum r'.dealer_hand then "WIN"
        else if hand_sum r'.dealer_hand < hand_sum r.player_hand then "WIN"
        else if hand_sum r.player_hand < hand_sum r'.dealer_hand then "LOSS"
        else "TIE") :=
  stand_autoplay_core r hst hdv hkv hlen

/-- C9 witness: the STAND contract evaluated on `standRound` (dealer at 19
draws nothing; 19 vs 19 is a TIE). -/
theorem stand_runs_dealer_autoplay_witness :
    ∃ (r' : Round) (k : Nat),
      standRound.apply_player_decision "STAND" = some r' ∧
      r'.state = some RoundState.ROUND_OVER ∧
      r'.player_hand = standRound.player_hand ∧
      r'.dealer_hand = standRound.dealer_hand ++ standRound.deck.take k ∧
      r'.deck = standRound.deck.drop k ∧
      17 ≤ hand_sum r'.dealer_hand ∧
      (∀ j, standRound.dealer_hand.length ≤ j → j < r'.dealer_hand.length →
        hand_sum (r'.dealer_hand.take j) < 17) ∧
      r'.outcome = some (if 21 < hand_sum r'.dealer_hand then "WIN"
        else if hand_sum r'.dealer_hand < hand_sum standRound.player_hand then "WIN"
        else if hand_sum standRound.player_hand < hand_sum r'.dealer_hand then "LOSS"
        else "TIE") :=
  stand_runs_dealer_autoplay standRound (by decide) (by decide) (by decide)
    (by decide)

/-- C8: `hand_sum` equals the specification's reference value on every
hand of domain-valid cards; it is order-independent (invariant under
permutation of the hand); and, the embedded method being a pure function
of the hand (the source computes with locals only and writes no
attribute), two successive calls on the same hand return the same value. -/
theorem hand_sum_correct :
    (∀ h : Hand, (∀ c ∈ h, c.valid = true) → hand_sum h = handSumSpec h) ∧
    (∀ h₁ h₂ : Hand, h₁.Perm h₂ → hand_sum h₁ = hand_sum h₂) ∧
    (∀ h : Hand, hand_sum h = hand_sum h) :=
  ⟨hand_sum_eq_handSumSpec, hand_sum_perm, fun _ => rfl⟩

/-- C8 witness: Ace♠+King♥ is worth 21 by both definitions, and the value
is unchanged by swapping the two cards. -/
theorem hand_sum_correct_witness :
    hand_sum [⟨1, 0⟩, ⟨13, 1⟩] = handSumSpec [⟨1, 0⟩, ⟨13, 1⟩] ∧
    hand_sum [⟨1, 0⟩, ⟨13, 1⟩] = hand_sum [⟨13, 1⟩, ⟨1, 0⟩] :=
  ⟨hand_sum_correct.1 _ (by decide), hand_sum_correct.2.1 _ _ (by decide)⟩

/-- C1: evaluation of `Round.start` at a deck dealing the player
Ace♠ + King♠ (a two-card 21).  The source sets the outcome to `BLACKJACK`
but then assigns `state = PLAYER_TURN` unconditionally (its own comment
says "If not over, player starts", yet there is no condition), so the
round *does* enter `PLAYER_TURN` instead of staying `ROUND_OVER`. -/
theorem start_blackjack_enters_player_turn :
    ∃ r : Round,
      Round.startWithDeck [⟨1, 0⟩, ⟨5, 1⟩, ⟨13, 0⟩, ⟨7, 2⟩] = some r ∧
      hand_sum r.player_hand = 21 ∧
      r.outcome = some "BLACKJACK" ∧
      r.state = some RoundState.PLAYER_TURN ∧
      ¬ r.state = some RoundState.ROUND_OVER := by
  refine ⟨{ deck := [], player_hand := [⟨1, 0⟩, ⟨13, 0⟩], dealer_hand := [⟨5, 1⟩, ⟨7, 2⟩], state := some RoundState.PLAYER_TURN, dealer_hidden := true, outcome := some "BLACKJACK" }, ?_, ?_, ?_, ?_, ?_⟩ <;> decide

/-- The `Round.game_decision` always ends with state `ROUND_OVER`. -/
theorem game_decision_state (r : Round) :
    (r.game_decision).state = some RoundState.ROUND_OVER := by
  unfold Round.game_decision
  split_ifs <;> rfl

/-- The `Round.play_dealer_turn` does nothing unless the state is
`DEALER_TURN`. -/
theorem play_dealer_turn_of_not_dealer (r : Round)
    (hs : ¬ r.state = some RoundState.DEALER_TURN) :
    r.play_dealer_turn = some r := by
  unfold Round.play_dealer_turn
  rw [if_neg hs]

/-- When `Round.play_dealer_turn` acts and returns, the state is
`ROUND_OVER`. -/
theorem play_dealer_turn_state_of_dealer (r r' : Round)
    (hs : r.state = some RoundState.DEALER_TURN)
    (h : r.play_dealer_turn = some r') :
    r'.state = some RoundState.ROUND_OVER := by
  unfold Round.play_dealer_turn at h
  rw [if_pos hs] at h
  cases hloop : dealerDrawLoop r.deck r.dealer_hand with
  | none => rw [hloop] at h; simp at h
  | some pr =>
    obtain ⟨dh, dk⟩ := pr
    rw [hloop] at h
    cases hb : is_bust dh <;> simp only [hb] at h
    · rw [← Option.some_inj.mp h]
      exact game_decision_state _
    · rw [← Option.some_inj.mp h]

/-- C4 counterexample: on `finishedRound` (state `ROUND_OVER`, outcome
`BLACKJACK`) the engine operation `game_decision` changes the outcome to
`WIN`, so `ROUND_OVER` is not terminal in the sense claimed. -/
theorem round_over_outcome_mutates :
    finishedRound.state = some RoundState.ROUND_OVER ∧
    finishedRound.outcome = some "BLACKJACK" ∧
    (Round.game_decision finishedRound).outcome = some "WIN" ∧
    ¬ (Round.game_decision finishedRound).outcome = finishedRound.outcome := by
  refine ⟨?_, ?_, ?_, ?_⟩ <;> decide

/-- C4 (amended): on a `ROUND_OVER` round, `play_dealer_turn` returns the
round unchanged, and after `game_decision` or any non-raising
`apply_player_decision` the state is again `ROUND_OVER` (never
`PLAYER_TURN` or `DEALER_TURN`); the outcome, however, may change, as the
counterexample shows, because the operations do not guard on
`ROUND_OVER`. -/
theorem round_over_state_preserved (r : Round)
    (h : r.state = some RoundState.ROUND_OVER) :
    r.play_dealer_turn = some r ∧
    (r.game_decision).state = some RoundState.ROUND_OVER ∧
    (∀ d r', r.apply_player_decision d = some r' →
      r'.state = some RoundState.ROUND_OVER) := by
  refine ⟨play_dealer_turn_of_not_dealer r (by rw [h]; simp), game_decision_state r, ?_⟩
  intro d r' hap
  unfold Round.apply_player_decision at hap
  by_cases hd : d = "HIT"
  · rw [if_pos hd] at hap
    cases hdeck : r.deck with
    | nil => rw [hdeck] at hap; simp at hap
    | cons c rest =>
      rw [hdeck] at hap
      cases hb : is_bust (r.player_hand ++ [c]) <;> simp only [hb] at hap
      · rw [← Option.some_inj.mp hap]
        exact h
      · rw [← Option.some_inj.mp hap]
  · rw [if_neg hd] at hap
    exact play_dealer_turn_state_of_dealer _ _ rfl hap

/-- C4 witness: the amended statement evaluated on `finishedRound`. -/
theorem round_over_state_preserved_witness :
    finishedRound.play_dealer_turn = some finishedRound ∧
    (Round.game_decision finishedRound).state = some RoundState.ROUND_OVER :=
  ⟨(round_over_state_preserved finishedRound (by decide)).1,
   (round_over_state_preserved finishedRound (by decide)).2.1⟩

/-! ## Codec lemmas. -/

/-- The magic cookie's big-endian bytes. -/
theorem u32be_magic : u32be MAGIC_COOKIE = [171, 205, 220, 186] := by decide

/-- The `unpack_offer` written as one if-chain. -/
theorem unpack_offer_eq (data : List Nat) :
    unpack_offer data =
      if data.length ≠ OFFER_LEN then Except.error "Bad offer length"
      else if be32 data ≠ MAGIC_COOKIE then Except.error "Bad magic cookie"
      else if data.getD 4 0 ≠ TYPE_OFFER then Except.error "Bad message type"
      else if 0 ≤ (be16 (data.drop 5) : Int) ∧ (be16 (data.drop 5) : Int) ≤ 65535 then
        Except.ok { tcp_port := be16 (data.drop 5),
                    server_name := _decode_fixed_str (data.drop 7) }
      else Except.error "Invalid TCP port" := by
  unfold unpack_offer _validate_cookie_and_type _validate_port
  split_ifs <;> rfl

/-- The `unpack_request` written as one if-chain. -/
theorem unpack_request_eq (data : List Nat) :
    unpack_request data =
      if data.length ≠ REQUEST_LEN then Except.error "Bad request length"
      else if be32 data ≠ MAGIC_COOKIE then Except.error "Bad magic cookie"
      else if data.getD 4 0 ≠ TYPE_REQUEST then Except.error "Bad message type"
      else if 0 ≤ (data.getD 5 0 : Int) ∧ (data.getD 5 0 : Int) ≤ 255 then
        Except.ok { rounds := data.getD 5 0,
                    team_name := _decode_fixed_str (data.drop 6) }
      else Except.error "Invalid rounds" := by
  unfold unpack_request _validate_cookie_and_type _validate_rounds
  split_ifs <;> rfl

/-- The `unpack_payload_decision` written as one if-chain. -/
theorem unpack_payload_decision_eq (data : List Nat) :
    unpack_payload_decision data =
      if data.length ≠ PAYLOAD_CLIENT_LEN then
        Except.error "Bad client payload length"
      else if be32 data ≠ MAGIC_COOKIE then Except.error "Bad magic cookie"
      else if data.getD 4 0 ≠ TYPE_PAYLOAD then Except.error "Bad message type"
      else if ¬ (data.drop 5).all (fun b => b < 128) then
        Except.error "Decision payload is not valid ASCII"
      else if data.drop 5 ≠ DECISION_HIT ∧ data.drop 5 ≠ DECISION_STAND then
        Except.error "Unknown decision value"
      else Except.ok (data.drop 5) := by
  unfold unpack_payload_decision _validate_cookie_and_type
  split_ifs <;> rfl

/-- The `unpack_payload_server` written as one if-chain. -/
theorem unpack_payload_server_eq (data : List Nat) :
    unpack_payload_server data =
      if data.length ≠ PAYLOAD_SERVER_LEN then
        Except.error "Bad server payload length"
      else if be32 data ≠ MAGIC_COOKIE then Except.error "Bad magic cookie"
      else if data.getD 4 0 ≠ TYPE_PAYLOAD then Except.error "Bad message type"
      else if ¬ (1 ≤ (be16 (data.drop 6) : Int) ∧ (be16 (data.drop 6) : Int) ≤ 13) then
        Except.error "Rank must be in range 1..13"
      else if ¬ (0 ≤ (data.getD 8 0 : Int) ∧ (data.getD 8 0 : Int) ≤ 3) then
        Except.error "Suit must be in range 0..3"
      else Except.ok { result := data.getD 5 0, rank := be16 (data.drop 6),
                       suit := data.getD 8 0 } := by
  unfold unpack_payload_server _validate_cookie_and_type _validate_rank_suit
  split_ifs <;> rfl

/-- Trailing NUL padding never contributes to the decoded prefix. -/
theorem takeWhile_append_replicate_zero (l : List Nat) (k : Nat) :
    (l ++ List.replicate k 0).takeWhile (fun x => x ≠ 0) =
      l.takeWhile (fun x => x ≠ 0) := by
  induction l with
  | nil =>
    simp only [List.nil_append]
    induction k with
    | zero => rfl
    | succ k ihk => simp [List.replicate_succ, List.takeWhile_cons]
  | cons a l ih =>
    by_cases ha : a = 0
    · simp [List.takeWhile_cons, ha]
    · simp only [List.cons_append, List.takeWhile_cons]
      simp [ha]
      simpa using ih

/-- A NUL-free list is its own decoded prefix. -/
theorem takeWhile_ne_zero_eq_self (l : List Nat) (h : ∀ b ∈ l, b ≠ 0) :
    l.takeWhile (fun x => x ≠ 0) = l := by
  induction l with
  | nil => rfl
  | cons a l ih =>
    have h1 : a ≠ 0 := h a (by simp)
    have h2 := ih (fun b hb => h b (by simp [hb]))
    simp [List.takeWhile_cons, h1]
    simpa using h2

/-- The encoded fixed-width field always has exactly the field width. -/
theorem encode_fixed_str_length (s : List Nat) (n : Nat) :
    (_encode_fixed_str s n).length = n := by
  simp only [_encode_fixed_str, List.length_append, List.length_replicate,
    List.length_take]
  omega

/-- Decoding an encoded fixed-width field keeps the truncated prefix up to
the first NUL. -/
theorem decode_encode_fixed_str (s : List Nat) (n : Nat) :
    _decode_fixed_str (_encode_fixed_str s n) =
      (s.take n).takeWhile (fun x => x ≠ 0) := by
  simp only [_encode_fixed_str, _decode_fixed_str]
  exact takeWhile_append_replicate_zero _ _

/-- C10: behaviour of the fixed 32-byte string fields, at the byte level
(a Python `str` is represented by its UTF-8 code units).  (1) A string of
at most 32 bytes with no NUL byte round-trips exactly.  (2) The encoding
always produces exactly 32 bytes.  (3) A longer string is silently
truncated to its first 32 bytes.  (4) In general decoding the encoding
yields the truncated prefix up to the first embedded NUL — so an embedded
NUL cuts the string short.  (5) Decoding is a total function whose output
never exceeds the input (the Python decode uses `errors="replace"` and
never raises). -/
theorem fixed_str_field_behaviour :
    (∀ s : List Nat, s.length ≤ NAME_LEN → (∀ b ∈ s, b ≠ 0) →
      _decode_fixed_str (_encode_fixed_str s NAME_LEN) = s) ∧
    (∀ s : List Nat, (_encode_fixed_str s NAME_LEN).length = NAME_LEN) ∧
    (∀ s : List Nat, NAME_LEN < s.length →
      _encode_fixed_str s NAME_LEN = s.take NAME_LEN) ∧
    (∀ s : List Nat, _decode_fixed_str (_encode_fixed_str s NAME_LEN) =
      (s.take NAME_LEN).takeWhile (fun x => x ≠ 0)) ∧
    (∀ b : List Nat, (_decode_fixed_str b).length ≤ b.length) := by
  refine ⟨?_, fun s => encode_fixed_str_length s NAME_LEN, ?_,
    fun s => decode_encode_fixed_str s NAME_LEN, ?_⟩
  · intro s h1 h2
    rw [decode_encode_fixed_str, List.take_of_length_le h1]
    exact takeWhile_ne_zero_eq_self s h2
  · intro s h
    have hl : (s.take NAME_LEN).length = NAME_LEN := by
      simp only [List.length_take]
      omega
    simp only [_encode_fixed_str, hl]
    simp
  · intro b
    simp only [_decode_fixed_str]
    induction b with
    | nil => simp
    | cons a l ih =>
      by_cases ha : a = 0
      · simp [List.takeWhile_cons, ha]
      · simp only [List.takeWhile_cons, List.length_cons]
        simp [ha]
        simpa using ih

/-- C10 witness: the round-trip on the two-byte name `"AB"`, the 32-byte
output length and the truncation of a 33-byte name, all evaluated. -/
theorem fixed_str_field_behaviour_witness :
    _decode_fixed_str (_encode_fixed_str [65, 66] NAME_LEN) = [65, 66] ∧
    (_encode_fixed_str (List.replicate 33 1) NAME_LEN).length = NAME_LEN ∧
    _encode_fixed_str (List.replicate 33 1) NAME_LEN =
      (List.replicate 33 1).take NAME_LEN :=
  ⟨fixed_str_field_behaviour.1 [65, 66] (by decide) (by decide),
   fixed_str_field_behaviour.2.1 (List.replicate 33 1),
   fixed_str_field_behaviour.2.2.1 (List.replicate 33 1) (by decide)⟩

/-- The `Except.bind` on a success just applies the continuation. -/
theorem except_bind_ok {ε α β : Type} (a : α) (f : α → Except ε β) :
    (Except.ok a : Except ε α).bind f = f a := rfl

/-- Offer round-trip. -/
theorem round_trip_offer (m : Offer) (hv : m.validFields) :
    (pack_offer m.tcp_port m.server_name).bind unpack_offer = Except.ok m := by
  obtain ⟨port, name⟩ := m
  simp only [Offer.validFields, validName] at hv
  obtain ⟨h0, h1, hlen, hbytes⟩ := hv
  have hpack : pack_offer port name =
      Except.ok (171 :: 205 :: 220 :: 186 :: TYPE_OFFER ::
        (port.toNat / 256 % 256) :: (port.toNat % 256) ::
        _encode_fixed_str name NAME_LEN) := by
    unfold pack_offer _validate_port
    rw [if_pos ⟨h0, h1⟩, u32be_magic]
    rfl
  have hp : port.toNat ≤ 65535 := by omega
  rw [hpack, except_bind_ok]
  rw [unpack_offer_eq]
  have hlen' : (171 :: 205 :: 220 :: 186 :: TYPE_OFFER ::
      (port.toNat / 256 % 256) :: (port.toNat % 256) ::
      _encode_fixed_str name NAME_LEN).length = OFFER_LEN := by
    simp [List.length_cons, encode_fixed_str_length, OFFER_LEN, NAME_LEN]
  rw [if_neg (by simp [hlen'])]
  rw [if_neg (fun h => h (by norm_num [be32, MAGIC_COOKIE]))]
  rw [if_neg (fun h => h rfl)]
  have hbe : be16 ((171 :: 205 :: 220 :: 186 :: TYPE_OFFER ::
      (port.toNat / 256 % 256) :: (port.toNat % 256) ::
      _encode_fixed_str name NAME_LEN).drop 5) = port.toNat := by
    show port.toNat / 256 % 256 * 256 + port.toNat % 256 = port.toNat
    omega
  rw [hbe]
  have hcond : 0 ≤ ((port.toNat : Int)) ∧ ((port.toNat : Int)) ≤ 65535 := by
    omega
  rw [if_pos hcond]
  have hdec : _decode_fixed_str (_encode_fixed_str name NAME_LEN) = name := by
    rw [decode_encode_fixed_str, List.take_of_length_le hlen]
    exact takeWhile_ne_zero_eq_self name (fun b hb => (hbytes b hb).2)
  have hdrop : (171 :: 205 :: 220 :: 186 :: TYPE_OFFER ::
      (port.toNat / 256 % 256) :: (port.toNat % 256) ::
      _encode_fixed_str name NAME_LEN).drop 7 =
      _encode_fixed_str name NAME_LEN := rfl
  rw [hdrop, hdec, Int.toNat_of_nonneg h0]

/-- Request round-trip. -/
theorem round_trip_request (m : Request) (hv : m.validFields) :
    (pack_request m.rounds m.team_name).bind unpack_request = Except.ok m := by
  obtain ⟨rounds, name⟩ := m
  simp only [Request.validFields, validName] at hv
  obtain ⟨h0, h1, hlen, hbytes⟩ := hv
  have hpack : pack_request rounds name =
      Except.ok (171 :: 205 :: 220 :: 186 :: TYPE_REQUEST :: rounds.toNat ::
        _encode_fixed_str name NAME_LEN) := by
    unfold pack_request _validate_rounds
    rw [if_pos ⟨h0, h1⟩, u32be_magic]
    rfl
  rw [hpack, except_bind_ok]
  rw [unpack_request_eq]
  have hlen' : (171 :: 205 :: 220 :: 186 :: TYPE_REQUEST :: rounds.toNat ::
      _encode_fixed_str name NAME_LEN).length = REQUEST_LEN := by
    simp [List.length_cons, encode_fixed_str_length, REQUEST_LEN, NAME_LEN]
  rw [if_neg (by simp [hlen'])]
  rw [if_neg (fun h => h (by norm_num [be32, MAGIC_COOKIE]))]
  rw [if_neg (fun h => h rfl)]
  have hgd : (171 :: 205 :: 220 :: 186 :: TYPE_REQUEST :: rounds.toNat ::
      _encode_fixed_str name NAME_LEN).getD 5 0 = rounds.toNat := rfl
  rw [hgd]
  have hcond : 0 ≤ ((rounds.toNat : Int)) ∧ ((rounds.toNat : Int)) ≤ 255 := by
    omega
  rw [if_pos hcond]
  have hdec : _decode_fixed_str (_encode_fixed_str name NAME_LEN) = name := by
    rw [decode_encode_fixed_str, List.take_of_length_le hlen]
    exact takeWhile_ne_zero_eq_self name (fun b hb => (hbytes b hb).2)
  have hdrop : (171 :: 205 :: 220 :: 186 :: TYPE_REQUEST :: rounds.toNat ::
      _encode_fixed_str name NAME_LEN).drop 6 =
      _encode_fixed_str name NAME_LEN := rfl
  rw [hdrop, hdec, Int.toNat_of_nonneg h0]

/-- Decision round-trip. -/
theorem round_trip_decision (d : List Nat) (hv : validDecision d) :
    (pack_payload_decision d).bind unpack_payload_decision = Except.ok d := by
  rcases hv with h | h <;> rw [h] <;> decide

/-- Server payload round-trip. -/
theorem round_trip_server_payload (m : ServerPayload) (hv : m.validFields) :
    (pack_payload_server m.result m.rank m.suit).bind unpack_payload_server =
      Except.ok m := by
  obtain ⟨res, rank, suit⟩ := m
  simp only [ServerPayload.validFields] at hv
  obtain ⟨hr0, hr1, hk1, hk13, hs0, hs3⟩ := hv
  have hpack : pack_payload_server res rank suit =
      Except.ok (171 :: 205 :: 220 :: 186 :: TYPE_PAYLOAD :: res.toNat ::
        (rank.toNat / 256 % 256) :: (rank.toNat % 256) :: suit.toNat :: []) := by
    unfold pack_payload_server _validate_rank_suit
    rw [if_neg (fun h => h ⟨hr0, hr1⟩)]
    rw [if_neg (fun h => h ⟨hk1, hk13⟩)]
    rw [if_neg (fun h => h ⟨hs0, hs3⟩), u32be_magic]
    rfl
  rw [hpack, except_bind_ok]
  rw [unpack_payload_server_eq]
  rw [if_neg (fun h => h rfl)]
  rw [if_neg (fun h => h (by norm_num [be32, MAGIC_COOKIE]))]
  rw [if_neg (fun h => h rfl)]
  have hbe : be16 ((171 :: 205 :: 220 :: 186 :: TYPE_PAYLOAD :: res.toNat ::
      (rank.toNat / 256 % 256) :: (rank.toNat % 256) :: suit.toNat :: []).drop 6) =
      rank.toNat := by
    show rank.toNat / 256 % 256 * 256 + rank.toNat % 256 = rank.toNat
    omega
  rw [hbe]
  have hcondr : 1 ≤ ((rank.toNat : Int)) ∧ ((rank.toNat : Int)) ≤ 13 := by
    omega
  rw [if_neg (not_not_intro hcondr)]
  have hgd8 : ([171, 205, 220, 186, TYPE_PAYLOAD, res.toNat,
      rank.toNat / 256 % 256, rank.toNat % 256, suit.toNat] : List Nat).getD 8 0 =
      suit.toNat := rfl
  rw [hgd8]
  have hconds : 0 ≤ ((suit.toNat : Int)) ∧ ((suit.toNat : Int)) ≤ 3 := by
    omega
  rw [if_neg (not_not_intro hconds)]
  have hgd5 : ([171, 205, 220, 186, TYPE_PAYLOAD, res.toNat,
      rank.toNat / 256 % 256, rank.toNat % 256, suit.toNat] : List Nat).getD 5 0 =
      res.toNat := rfl
  rw [hgd5, Int.toNat_of_nonneg hr0,
    Int.toNat_of_nonneg (by omega : (0 : Int) ≤ rank),
    Int.toNat_of_nonneg hs0]

/-- C6: for each of the four message kinds, decoding the encoding of a
message with valid fields returns the message unchanged. -/
theorem codec_round_trip :
    (∀ m : Offer, m.validFields →
      (pack_offer m.tcp_port m.server_name).bind unpack_offer = Except.ok m) ∧
    (∀ m : Request, m.validFields →
      (pack_request m.rounds m.team_name).bind unpack_request = Except.ok m) ∧
    (∀ d : List Nat, validDecision d →
      (pack_payload_decision d).bind unpack_payload_decision = Except.ok d) ∧
    (∀ m : ServerPayload, m.validFields →
      (pack_payload_server m.result m.rank m.suit).bind unpack_payload_server =
        Except.ok m) :=
  ⟨round_trip_offer, round_trip_request, round_trip_decision,
   round_trip_server_payload⟩

/-- C6 witness: a round-trip of each message kind, evaluated on concrete
messages. -/
theorem codec_round_trip_witness :
    (pack_offer 8080 [65, 66]).bind unpack_offer = Except.ok ⟨8080, [65, 66]⟩ ∧
    (pack_request 3 [84]).bind unpack_request = Except.ok ⟨3, [84]⟩ ∧
    (pack_payload_decision DECISION_HIT).bind unpack_payload_decision =
      Except.ok DECISION_HIT ∧
    (pack_payload_server 3 13 2).bind unpack_payload_server =
      Except.ok ⟨3, 13, 2⟩ :=
  ⟨codec_round_trip.1 ⟨8080, [65, 66]⟩ (by decide),
   codec_round_trip.2.1 ⟨3, [84]⟩ (by decide),
   codec_round_trip.2.2.1 DECISION_HIT (by decide),
   codec_round_trip.2.2.2 ⟨3, 13, 2⟩ (by decide)⟩

/-- The `unpack_offer` rejects wrong length, cookie or tag. -/
theorem unpack_offer_rejects (data : List Nat) :
    (data.length ≠ OFFER_LEN → ∃ e, unpack_offer data = Except.error e) ∧
    (be32 data ≠ MAGIC_COOKIE → ∃ e, unpack_offer data = Except.error e) ∧
    (data.getD 4 0 ≠ TYPE_OFFER → ∃ e, unpack_offer data = Except.error e) := by
  rw [unpack_offer_eq]
  refine ⟨?_, ?_, ?_⟩ <;> intro h <;> split_ifs <;>
    first
    | exact ⟨_, rfl⟩
    | tauto

/-- The `unpack_request` rejects wrong length, cookie or tag. -/
theorem unpack_request_rejects (data : List Nat) :
    (data.length ≠ REQUEST_LEN → ∃ e, unpack_request data = Except.error e) ∧
    (be32 data ≠ MAGIC_COOKIE → ∃ e, unpack_request data = Except.error e) ∧
    (data.getD 4 0 ≠ TYPE_REQUEST → ∃ e, unpack_request data = Except.error e) := by
  rw [unpack_request_eq]
  refine ⟨?_, ?_, ?_⟩ <;> intro h <;> split_ifs <;>
    first
    | exact ⟨_, rfl⟩
    | tauto

/-- The `unpack_payload_decision` rejects wrong length, cookie, tag, or an
unrecognized decision literal. -/
theorem unpack_payload_decision_rejects (data : List Nat) :
    (data.length ≠ PAYLOAD_CLIENT_LEN →
      ∃ e, unpack_payload_decision data = Except.error e) ∧
    (be32 data ≠ MAGIC_COOKIE →
      ∃ e, unpack_payload_decision data = Except.error e) ∧
    (data.getD 4 0 ≠ TYPE_PAYLOAD →
      ∃ e, unpack_payload_decision data = Except.error e) ∧
    (data.drop 5 ≠ DECISION_HIT → data.drop 5 ≠ DECISION_STAND →
      ∃ e, unpack_payload_decision data = Except.error e) := by
  rw [unpack_payload_decision_eq]
  refine ⟨?_, ?_, ?_, ?_⟩ <;> intro h <;> try intro h2
  all_goals split_ifs <;>
    first
    | exact ⟨_, rfl⟩
    | tauto

/-- The `unpack_payload_server` rejects wrong length, cookie, tag, an
out-of-range rank or an out-of-range suit. -/
theorem unpack_payload_server_rejects (data : List Nat) :
    (data.length ≠ PAYLOAD_SERVER_LEN →
      ∃ e, unpack_payload_server data = Except.error e) ∧
    (be32 data ≠ MAGIC_COOKIE →
      ∃ e, unpack_payload_server data = Except.error e) ∧
    (data.getD 4 0 ≠ TYPE_PAYLOAD →
      ∃ e, unpack_payload_server data = Except.error e) ∧
    (¬(1 ≤ (be16 (data.drop 6) : Int) ∧ (be16 (data.drop 6) : Int) ≤ 13) →
      ∃ e, unpack_payload_server data = Except.error e) ∧
    (¬(0 ≤ (data.getD 8 0 : Int) ∧ (data.getD 8 0 : Int) ≤ 3) →
      ∃ e, unpack_payload_server data = Except.error e) := by
  rw [unpack_payload_server_eq]
  refine ⟨?_, ?_, ?_, ?_, ?_⟩ <;> intro h <;> split_ifs <;>
    first
    | exact ⟨_, rfl⟩
    | tauto

/-- The pack functions refuse out-of-domain field values. -/
theorem pack_rejects :
    (∀ (p : Int) (n : List Nat), ¬(0 ≤ p ∧ p ≤ 65535) →
      ∃ e, pack_offer p n = Except.error e) ∧
    (∀ (k : Int) (n : List Nat), ¬(0 ≤ k ∧ k ≤ 255) →
      ∃ e, pack_request k n = Except.error e) ∧
    (∀ d : List Nat, d ≠ DECISION_HIT → d ≠ DECISION_STAND →
      ∃ e, pack_payload_decision d = Except.error e) ∧
    (∀ res rank suit : Int, ¬(0 ≤ res ∧ res ≤ 255) →
      ∃ e, pack_payload_server res rank suit = Except.error e) ∧
    (∀ res rank suit : Int, ¬(1 ≤ rank ∧ rank ≤ 13) →
      ∃ e, pack_payload_server res rank suit = Except.error e) ∧
    (∀ res rank suit : Int, ¬(0 ≤ suit ∧ suit ≤ 3) →
      ∃ e, pack_payload_server res rank suit = Except.error e) := by
  refine ⟨?_, ?_, ?_, ?_, ?_, ?_⟩
  · intro p n h
    unfold pack_offer _validate_port
    split_ifs <;>
      first
      | exact ⟨_, rfl⟩
      | tauto
  · intro k n h
    unfold pack_request _validate_rounds
    split_ifs <;>
      first
      | exact ⟨_, rfl⟩
      | tauto
  · intro d h1 h2
    unfold pack_payload_decision
    split_ifs <;>
      first
      | exact ⟨_, rfl⟩
      | tauto
  all_goals intro res rank suit h
  all_goals unfold pack_payload_server _validate_rank_suit
  all_goals split_ifs <;>
    first
    | exact ⟨_, rfl⟩
    | tauto

/-- C7: decoding fails with a protocol error on every buffer with a wrong
length for its kind, a wrong magic cookie, a wrong type tag, an
out-of-range rank or suit, or a decision value that is not one of the two
recognized literals; and the encoders refuse to produce bytes for
out-of-domain field values. -/
theorem codec_rejects_invalid :
    (∀ data : List Nat, data.length ≠ OFFER_LEN →
      ∃ e, unpack_offer data = Except.error e) ∧
    (∀ data : List Nat, data.length ≠ REQUEST_LEN →
      ∃ e, unpack_request data = Except.error e) ∧
    (∀ data : List Nat, data.length ≠ PAYLOAD_CLIENT_LEN →
      ∃ e, unpack_payload_decision data = Except.error e) ∧
    (∀ data : List Nat, data.length ≠ PAYLOAD_SERVER_LEN →
      ∃ e, unpack_payload_server data = Except.error e) ∧
    (∀ data : List Nat, be32 data ≠ MAGIC_COOKIE →
      (∃ e, unpack_offer data = Except.error e) ∧
      (∃ e, unpack_request data = Except.error e) ∧
      (∃ e, unpack_payload_decision data = Except.error e) ∧
      (∃ e, unpack_payload_server data = Except.error e)) ∧
    (∀ data : List Nat, data.getD 4 0 ≠ TYPE_OFFER →
      ∃ e, unpack_offer data = Except.error e) ∧
    (∀ data : List Nat, data.getD 4 0 ≠ TYPE_REQUEST →
      ∃ e, unpack_request data = Except.error e) ∧
    (∀ data : List Nat, data.getD 4 0 ≠ TYPE_PAYLOAD →
      (∃ e, unpack_payload_decision data = Except.error e) ∧
      (∃ e, unpack_payload_server data = Except.error e)) ∧
    (∀ data : List Nat,
      ¬(1 ≤ (be16 (data.drop 6) : Int) ∧ (be16 (data.drop 6) : Int) ≤ 13) →
      ∃ e, unpack_payload_server data = Except.error e) ∧
    (∀ data : List Nat,
      ¬(0 ≤ (data.getD 8 0 : Int) ∧ (data.getD 8 0 : Int) ≤ 3) →
      ∃ e, unpack_payload_server data = Except.error e) ∧
    (∀ data : List Nat, data.drop 5 ≠ DECISION_HIT →
      data.drop 5 ≠ DECISION_STAND →
      ∃ e, unpack_payload_decision data = Except.error e) ∧
    (∀ (p : Int) (n : List Nat), ¬(0 ≤ p ∧ p ≤ 65535) →
      ∃ e, pack_offer p n = Except.error e) ∧
    (∀ (k : Int) (n : List Nat), ¬(0 ≤ k ∧ k ≤ 255) →
      ∃ e, pack_request k n = Except.error e) ∧
    (∀ d : List Nat, d ≠ DECISION_HIT → d ≠ DECISION_STAND →
      ∃ e, pack_payload_decision d = Except.error e) ∧
    (∀ res rank suit : Int, ¬(0 ≤ res ∧ res ≤ 255) →
      ∃ e, pack_payload_server res rank suit = Except.error e) ∧
    (∀ res rank suit : Int, ¬(1 ≤ rank ∧ rank ≤ 13) →
      ∃ e, pack_payload_server res rank suit = Except.error e) ∧
    (∀ res rank suit : Int, ¬(0 ≤ suit ∧ suit ≤ 3) →
      ∃ e, pack_payload_server res rank suit = Except.error e) :=
  ⟨fun d => (unpack_offer_rejects d).1,
   fun d => (unpack_request_rejects d).1,
   fun d => (unpack_payload_decision_rejects d).1,
   fun d => (unpack_payload_server_rejects d).1,
   fun d h => ⟨(unpack_offer_rejects d).2.1 h, (unpack_request_rejects d).2.1 h,
     (unpack_payload_decision_rejects d).2.1 h,
     (unpack_payload_server_rejects d).2.1 h⟩,
   fun d => (unpack_offer_rejects d).2.2,
   fun d => (unpack_request_rejects d).2.2,
   fun d h => ⟨(unpack_payload_decision_rejects d).2.2.1 h,
     (unpack_payload_server_rejects d).2.2.1 h⟩,
   fun d => (unpack_payload_server_rejects d).2.2.2.1,
   fun d => (unpack_payload_server_rejects d).2.2.2.2,
   fun d => (unpack_payload_decision_rejects d).2.2.2,
   pack_rejects.1, pack_rejects.2.1, pack_rejects.2.2.1,
   pack_rejects.2.2.2.1, pack_rejects.2.2.2.2.1, pack_rejects.2.2.2.2.2⟩

/-- C7 witness: each rejection evaluated at a concrete invalid input. -/
theorem codec_rejects_invalid_witness :
    (∃ e, unpack_offer [] = Except.error e) ∧
    (∃ e, unpack_request [] = Except.error e) ∧
    (∃ e, unpack_payload_decision [] = Except.error e) ∧
    (∃ e, unpack_payload_server [] = Except.error e) ∧
    (∃ e, unpack_offer (List.replicate 39 0) = Except.error e) ∧
    (∃ e, unpack_offer (171 :: 205 :: 220 :: 186 :: 9 :: List.replicate 34 1) =
      Except.error e) ∧
    (∃ e, unpack_request (171 :: 205 :: 220 :: 186 :: 9 :: List.replicate 33 1) =
      Except.error e) ∧
    (∃ e, unpack_payload_decision [171, 205, 220, 186, 9, 1, 1, 1, 1, 1] =
      Except.error e) ∧
    (∃ e, unpack_payload_server [171, 205, 220, 186, 4, 0, 0, 0, 0] =
      Except.error e) ∧
    (∃ e, unpack_payload_server [171, 205, 220, 186, 4, 0, 0, 5, 7] =
      Except.error e) ∧
    (∃ e, unpack_payload_decision bogusDecisionPacket = Except.error e) ∧
    (∃ e, pack_offer (-1) [] = Except.error e) ∧
    (∃ e, pack_request 256 [] = Except.error e) ∧
    (∃ e, pack_payload_decision [1, 2, 3] = Except.error e) ∧
    (∃ e, pack_payload_server 256 5 0 = Except.error e) ∧
    (∃ e, pack_payload_server 0 0 0 = Except.error e) ∧
    (∃ e, pack_payload_server 0 5 9 = Except.error e) :=
  ⟨codec_rejects_invalid.1 [] (by decide),
   codec_rejects_invalid.2.1 [] (by decide),
   codec_rejects_invalid.2.2.1 [] (by decide),
   codec_rejects_invalid.2.2.2.1 [] (by decide),
   (codec_rejects_invalid.2.2.2.2.1 (List.replicate 39 0) (by decide)).1,
   codec_rejects_invalid.2.2.2.2.2.1
     (171 :: 205 :: 220 :: 186 :: 9 :: List.replicate 34 1) (by decide),
   codec_rejects_invalid.2.2.2.2.2.2.1
     (171 :: 205 :: 220 :: 186 :: 9 :: List.replicate 33 1) (by decide),
   (codec_rejects_invalid.2.2.2.2.2.2.2.1
     [171, 205, 220, 186, 9, 1, 1, 1, 1, 1] (by decide)).1,
   codec_rejects_invalid.2.2.2.2.2.2.2.2.1
     [171, 205, 220, 186, 4, 0, 0, 0, 0] (by decide),
   codec_rejects_invalid.2.2.2.2.2.2.2.2.2.1
     [171, 205, 220, 186, 4, 0, 0, 5, 7] (by decide),
   codec_rejects_invalid.2.2.2.2.2.2.2.2.2.2.1 bogusDecisionPacket (by decide)
     (by decide),
   codec_rejects_invalid.2.2.2.2.2.2.2.2.2.2.2.1 (-1) [] (by decide),
   codec_rejects_invalid.2.2.2.2.2.2.2.2.2.2.2.2.1 256 [] (by decide),
   codec_rejects_invalid.2.2.2.2.2.2.2.2.2.2.2.2.2.1 [1, 2, 3] (by decide)
     (by decide),
   codec_rejects_invalid.2.2.2.2.2.2.2.2.2.2.2.2.2.2.1 256 5 0 (by decide),
   codec_rejects_invalid.2.2.2.2.2.2.2.2.2.2.2.2.2.2.2.1 0 0 0 (by decide),
   codec_rejects_invalid.2.2.2.2.2.2.2.2.2.2.2.2.2.2.2.2 0 5 9 (by decide)⟩

/-- C5 counterexample: a received Decision payload with correct length,
cookie and type but decision value `"XXXXX"` is rejected by
`unpack_payload_decision`, and the session loop terminates with a protocol
error, sending no dealer payloads — it does not fall back to STAND. -/
theorem unknown_decision_terminates_session :
    standRound.need_player_decision = true ∧
    bogusDecisionPacket.length = PAYLOAD_CLIENT_LEN ∧
    bogusDecisionPacket.drop 5 ≠ DECISION_HIT ∧
    bogusDecisionPacket.drop 5 ≠ DECISION_STAND ∧
    unpack_payload_decision bogusDecisionPacket =
      Except.error "Unknown decision value" ∧
    roundLoop standRound [bogusDecisionPacket] 1 = ([], SessEnd.protoErr) := by
  refine ⟨?_, ?_, ?_, ?_, ?_, ?_⟩ <;> decide

/-- C5 (amended): a received Decision payload whose decision bytes are
neither recognized literal never reaches the session's treat-as-STAND
branch: `unpack_payload_decision` raises a protocol error first, and the
session loop terminates with that error, running no dealer auto-play and
sending no payloads. -/
theorem unknown_decision_rejected_at_decode (r : Round) (sd : Nat)
    (pkt : List Nat) (more : List (List Nat))
    (hout : isFinalOutcome r.outcome = false)
    (hneed : r.need_player_decision = true)
    (h5 : pkt.drop 5 ≠ DECISION_HIT)
    (h5' : pkt.drop 5 ≠ DECISION_STAND) :
    (∃ e, unpack_payload_decision pkt = Except.error e) ∧
    roundLoop r (pkt :: more) sd = ([], SessEnd.protoErr) := by
  obtain ⟨e, he⟩ := (unpack_payload_decision_rejects pkt).2.2.2 h5 h5'
  refine ⟨⟨e, he⟩, ?_⟩
  unfold roundLoop
  rw [if_neg (by simp [hout]), if_pos hneed]
  dsimp only
  rw [he]

/-- C5 amended witness: the amended statement evaluated on `standRound`
and the `"XXXXX"` packet. -/
theorem unknown_decision_rejected_at_decode_witness :
    (∃ e, unpack_payload_decision bogusDecisionPacket = Except.error e) ∧
    roundLoop standRound [bogusDecisionPacket] 1 = ([], SessEnd.protoErr) :=
  unknown_decision_rejected_at_decode standRound 1 bogusDecisionPacket []
    (by decide) (by decide) (by decide) (by decide)

/-- Every result code the session produces fits one byte. -/
theorem outcome_code_le (o : Option String) : _outcome_to_result_code o ≤ 255 := by
  cases o with
  | none => decide
  | some s =>
    show (if s = "WIN" ∨ s = "BLACKJACK" then RESULT_WIN
      else if s = "LOSS" then RESULT_LOSS
      else if s = "TIE" then RESULT_TIE
      else RESULT_NOT_OVER) ≤ 255
    split_ifs <;> decide

/-- The `pack_payload_server` succeeds on in-domain fields. -/
theorem pack_payload_server_ok (res rank suit : Nat) (hres : res ≤ 255)
    (h1 : 1 ≤ rank) (h13 : rank ≤ 13) (hs : suit ≤ 3) :
    ∃ bs, pack_payload_server res rank suit = Except.ok bs := by
  unfold pack_payload_server _validate_rank_suit
  have hA : 0 ≤ (res : Int) ∧ (res : Int) ≤ 255 := by omega
  rw [if_neg (not_not_intro hA)]
  have hB : 1 ≤ (rank : Int) ∧ (rank : Int) ≤ 13 := by omega
  rw [if_neg (not_not_intro hB)]
  have hC : 0 ≤ (suit : Int) ∧ (suit : Int) ≤ 3 := by omega
  rw [if_neg (not_not_intro hC)]
  exact ⟨_, rfl⟩

/-- The suit table is total on engine suits 0..3. -/
theorem proto_suit_eq (s : Nat) (hs : s ≤ 3) :
    _INTERNAL_TO_PROTO_SUIT s = some (if s = 0 then 3 else s - 1) := by
  unfold _INTERNAL_TO_PROTO_SUIT
  interval_cases s <;> rfl

/-- The `_send_card` succeeds on every domain-valid card and one-byte result
code. -/
theorem send_card_ok (c : Card) (hc : c.valid = true) (code : Nat)
    (hcode : code ≤ 255) : ∃ p, _send_card c code = some p := by
  simp only [Card.valid, Bool.and_eq_true, decide_eq_true_eq] at hc
  obtain ⟨⟨h1, h13⟩, hs3⟩ := hc
  unfold _send_card
  rw [proto_suit_eq c.suit hs3]
  have hps : (if c.suit = 0 then 3 else c.suit - 1) ≤ 3 := by
    split_ifs <;> omega
  obtain ⟨bs, hbs⟩ := pack_payload_server_ok code c.rank
    (if c.suit = 0 then 3 else c.suit - 1) hcode h1 h13 hps
  dsimp only
  rw [hbs]
  exact ⟨_, rfl⟩

/-- Characterization of the dealer-card send loop on domain-valid cards
and a final outcome: every send succeeds, one payload per card in order,
`NOT_OVER` on all but the last, the outcome code on the last. -/
theorem sendDealerCards_spec (cards : List Card) (outcome : Option String)
    (hne : cards ≠ []) (hv : ∀ c ∈ cards, c.valid = true)
    (hfin : isFinalOutcome outcome = true) :
    ∃ ps, sendDealerCards cards outcome = (ps, true) ∧
      ps.length = cards.length ∧
      ∀ i, i < ps.length →
        _send_card (cards.getD i ⟨0, 0⟩)
          (if i = ps.length - 1 then _outcome_to_result_code outcome
           else RESULT_NOT_OVER) = some (ps.getD i ⟨0, 0, 0⟩) := by
  induction cards with
  | nil => exact absurd rfl hne
  | cons c rest ih =>
    cases rest with
    | nil =>
      obtain ⟨p, hp⟩ := send_card_ok c (hv c (by simp))
        (_outcome_to_result_code outcome) (outcome_code_le outcome)
      refine ⟨[p], ?_, rfl, ?_⟩
      · unfold sendDealerCards
        dsimp only
        rw [if_pos hfin, hp]
      · intro i hi
        simp only [List.length_cons, List.length_nil] at hi
        interval_cases i
        simpa using hp
    | cons c2 rest2 =>
      obtain ⟨ps', heq', hlen', hidx'⟩ := ih (by simp)
        (fun x hx => hv x (by simp [hx]))
      obtain ⟨p, hp⟩ := send_card_ok c (hv c (by simp)) RESULT_NOT_OVER
        (by decide)
      refine ⟨p :: ps', ?_, by simp [hlen'], ?_⟩
      · unfold sendDealerCards
        rw [hp]
        dsimp only
        rw [heq']
      · intro i hi
        cases i with
        | zero =>
          have hlp : 1 ≤ ps'.length := by
            rw [hlen']
            simp
          have hne0 : (0 : Nat) ≠ (p :: ps').length - 1 := by
            simp only [List.length_cons]
            omega
          simp only [List.getD_cons_zero, if_neg hne0]
          exact hp
        | succ i' =>
          have hi' : i' < ps'.length := by
            simp only [List.length_cons] at hi
            omega
          have hlp : 1 ≤ ps'.length := by
            rw [hlen']
            simp
          by_cases hc2 : i' = ps'.length - 1
          · have hcnd : i' + 1 = (p :: ps').length - 1 := by
              simp only [List.length_cons]
              omega
            rw [List.getD_cons_succ, List.getD_cons_succ, if_pos hcnd]
            have h2 := hidx' i' hi'
            rw [if_pos hc2] at h2
            exact h2
          · have hcnd : ¬(i' + 1 = (p :: ps').length - 1) := by
              simp only [List.length_cons]
              omega
            rw [List.getD_cons_succ, List.getD_cons_succ, if_neg hcnd]
            have h2 := hidx' i' hi'
            rw [if_neg hc2] at h2
            exact h2

/-- Dropping the first element shifts positional lookup by one. -/
theorem getD_drop_one {α : Type} (l : List α) (i : Nat) (d : α) :
    (l.drop 1).getD i d = l.getD (i + 1) d := by
  cases l with
  | nil => simp [List.getD]
  | cons a t => simp [List.getD_cons_succ]

/-- C3: on a round in `PLAYER_TURN` (domain-valid cards, dealer holding
two cards of which the client has seen one, enough deck), a STAND makes
the session send exactly one payload per dealer card the client has not
yet seen — the hidden card first, then each draw, in draw order — with
`NOT_OVER` on every payload but the last and the round's final outcome
code on the last; at least one payload is sent, so the defensive
extra-payload path for "zero new cards" is never taken. -/
theorem stand_sends_unseen_dealer_payloads (r : Round)
    (hst : r.state = some RoundState.PLAYER_TURN)
    (hdv : ∀ c ∈ r.dealer_hand, c.valid = true)
    (hkv : ∀ c ∈ r.deck, c.valid = true)
    (hdl : 2 ≤ r.dealer_hand.length)
    (hlen : 17 ≤ r.dealer_hand.length + r.deck.length) :
    ∃ ps r',
      handle_stand_and_send_dealer r 1 = (ps, some (r', r'.dealer_hand.length)) ∧
      isFinalOutcome r'.outcome = true ∧
      ps ≠ [] ∧
      ps.length = r'.dealer_hand.length - 1 ∧
      (∀ i, i < ps.length →
        _send_card (r'.dealer_hand.getD (i + 1) ⟨0, 0⟩)
          (if i = ps.length - 1 then _outcome_to_result_code r'.outcome
           else RESULT_NOT_OVER) = some (ps.getD i ⟨0, 0, 0⟩)) := by
  obtain ⟨r', k, happly, hState, hPlayer, hDealer, hDeck, hSum, hPre, hOut⟩ :=
    stand_autoplay_core r hst hdv hkv hlen
  have hfin : isFinalOutcome r'.outcome = true := by
    rw [hOut]
    show ((if 21 < hand_sum r'.dealer_hand then "WIN"
      else if hand_sum r'.dealer_hand < hand_sum r.player_hand then "WIN"
      else if hand_sum r.player_hand < hand_sum r'.dealer_hand then "LOSS"
      else "TIE") = "WIN" || _ = "LOSS" || _ = "TIE" || _ = "BLACKJACK") = true
    split_ifs <;> decide
  have hdvp : ∀ c ∈ r'.dealer_hand, c.valid = true := by
    rw [hDealer]
    intro c hc
    rcases List.mem_append.mp hc with h | h
    · exact hdv c h
    · exact hkv c (List.take_subset _ _ h)
  have hlen2 : 2 ≤ r'.dealer_hand.length := by
    rw [hDealer]
    simp only [List.length_append]
    omega
  have hne : r'.dealer_hand.drop 1 ≠ [] := by
    intro h
    have hh := congrArg List.length h
    simp only [List.length_drop, List.length_nil] at hh
    omega
  obtain ⟨ps, hsend, hlenps, hidx⟩ := sendDealerCards_spec
    (r'.dealer_hand.drop 1) r'.outcome hne
    (fun c hc => hdvp c (List.drop_subset _ _ hc)) hfin
  refine ⟨ps, r', ?_, hfin, ?_, ?_, ?_⟩
  · unfold handle_stand_and_send_dealer
    rw [happly]
    dsimp only
    rw [if_neg (fun hcc => hne hcc.1)]
    rw [hsend]
    dsimp only
    rw [if_neg (fun hcc => hne (List.length_eq_zero.mp hcc.2))]
  · intro h
    rw [h] at hlenps
    simp only [List.length_nil, List.length_drop] at hlenps
    omega
  · rw [hlenps, List.length_drop]
  · intro i hi
    have h2 := hidx i hi
    rw [getD_drop_one] at h2
    exact h2

/-- C3 witness: the STAND payload contract evaluated on `standRound`
(dealer 19 draws nothing; exactly the hidden 9♣ is sent, carrying the TIE
code). -/
theorem stand_sends_unseen_dealer_payloads_witness :
    ∃ ps r',
      handle_stand_and_send_dealer standRound 1 =
        (ps, some (r', r'.dealer_hand.length)) ∧
      isFinalOutcome r'.outcome = true ∧
      ps ≠ [] ∧
      ps.length = r'.dealer_hand.length - 1 ∧
      (∀ i, i < ps.length →
        _send_card (r'.dealer_hand.getD (i + 1) ⟨0, 0⟩)
          (if i = ps.length - 1 then _outcome_to_result_code r'.outcome
           else RESULT_NOT_OVER) = some (ps.getD i ⟨0, 0, 0⟩)) :=
  stand_sends_unseen_dealer_payloads standRound (by decide) (by decide)
    (by decide) (by decide) (by decide)

/-- C2: on every round that starts with two cards in each hand
(domain-valid where sent), the session sends exactly three payloads at
round start, in order: the player's first card, the dealer's up-card, the
player's second card.  They carry `NOT_OVER`, except that on a two-card
21 the third payload carries `WIN` and the round's payload stream stops
there (`continue`). -/
theorem round_start_sends_three (pc1 pc2 dc1 dc2 : Card) (deck : List Card)
    (st : Option RoundState) (hid : Bool) (oc : Option String)
    (packets : List (List Nat))
    (h1 : pc1.valid = true) (h2 : pc2.valid = true) (h3 : dc1.valid = true) :
    ∃ p1 d1 p2,
      _send_card pc1 RESULT_NOT_OVER = some p1 ∧
      _send_card dc1 RESULT_NOT_OVER = some d1 ∧
      ((hand_sum [pc1, pc2] = 21 ∧ _send_card pc2 RESULT_WIN = some p2 ∧
        runRoundPayloads ⟨deck, [pc1, pc2], [dc1, dc2], st, hid, oc⟩ packets =
          ([p1, d1, p2], SessEnd.done)) ∨
       (hand_sum [pc1, pc2] ≠ 21 ∧ _send_card pc2 RESULT_NOT_OVER = some p2 ∧
        ∃ rest e, runRoundPayloads ⟨deck, [pc1, pc2], [dc1, dc2], st, hid, oc⟩
          packets = (p1 :: d1 :: p2 :: rest, e))) := by
  obtain ⟨p1, hp1⟩ := send_card_ok pc1 h1 RESULT_NOT_OVER (by decide)
  obtain ⟨d1, hd1⟩ := send_card_ok dc1 h3 RESULT_NOT_OVER (by decide)
  by_cases hbj : hand_sum [pc1, pc2] = 21
  · obtain ⟨p2, hp2⟩ := send_card_ok pc2 h2 RESULT_WIN (by decide)
    refine ⟨p1, d1, p2, hp1, hd1, Or.inl ⟨hbj, hp2, ?_⟩⟩
    unfold runRoundPayloads
    rw [if_neg (by simp)]
    simp only [List.getD_cons_zero, List.getD_cons_succ]
    rw [hp1]
    dsimp only
    rw [hd1]
    dsimp only
    rw [if_pos hbj, hp2]
  · obtain ⟨p2, hp2⟩ := send_card_ok pc2 h2 RESULT_NOT_OVER (by decide)
    refine ⟨p1, d1, p2, hp1, hd1, Or.inr ⟨hbj, hp2,
      (roundLoop ⟨deck, [pc1, pc2], [dc1, dc2], st, hid, oc⟩ packets 1).1,
      (roundLoop ⟨deck, [pc1, pc2], [dc1, dc2], st, hid, oc⟩ packets 1).2, ?_⟩⟩
    unfold runRoundPayloads
    rw [if_neg (by simp)]
    simp only [List.getD_cons_zero, List.getD_cons_succ]
    rw [hp1]
    dsimp only
    rw [hd1]
    dsimp only
    rw [if_neg hbj, hp2]

/-- C2 witness: the round-start contract on `standRound`'s deal (19, not
blackjack) with an empty packet stream. -/
theorem round_start_sends_three_witness :
    ∃ p1 d1 p2,
      _send_card (⟨13, 0⟩ : Card) RESULT_NOT_OVER = some p1 ∧
      _send_card (⟨13, 2⟩ : Card) RESULT_NOT_OVER = some d1 ∧
      ((hand_sum [⟨13, 0⟩, ⟨9, 1⟩] = 21 ∧
        _send_card (⟨9, 1⟩ : Card) RESULT_WIN = some p2 ∧
        runRoundPayloads ⟨List.replicate 15 ⟨2, 0⟩, [⟨13, 0⟩, ⟨9, 1⟩],
          [⟨13, 2⟩, ⟨9, 3⟩], some RoundState.PLAYER_TURN, true, none⟩ [] =
          ([p1, d1, p2], SessEnd.done)) ∨
       (hand_sum [⟨13, 0⟩, ⟨9, 1⟩] ≠ 21 ∧
        _send_card (⟨9, 1⟩ : Card) RESULT_NOT_OVER = some p2 ∧
        ∃ rest e, runRoundPayloads ⟨List.replicate 15 ⟨2, 0⟩,
          [⟨13, 0⟩, ⟨9, 1⟩], [⟨13, 2⟩, ⟨9, 3⟩],
          some RoundState.PLAYER_TURN, true, none⟩ [] =
          (p1 :: d1 :: p2 :: rest, e))) :=
  round_start_sends_three ⟨13, 0⟩ ⟨9, 1⟩ ⟨13, 2⟩ ⟨9, 3⟩
    (List.replicate 15 ⟨2, 0⟩) (some RoundState.PLAYER_TURN) true none []
    (by decide) (by decide) (by decide)

end Blackijecky
